import Mathlib

/-!
# OrleansClientCpp native host (`client.cpp`)

A shallow embedding of `Samples/2.3/HelloWorldCpp/src/OrleansClientCpp/client.cpp`:
the trusted-platform-assembly list builder `BuildTpaList` (both platform variants),
the two native callbacks `OnInitialize` and `OnMessage`, and the bootstrap sequence
of `main`.

Conventions of the embedding.

* A C string (`const char *`, and the contents of a `std::string` built from one)
  is the list of its characters before the terminating NUL: `Str`.
* The C type `int` is embedded as `Int`.  The lengths subtracted in `BuildTpaList`
  are lengths of directory entry names (at most `NAME_MAX` bytes) and of the
  extension, so the `size_t` subtraction narrowed to `int` is the mathematical
  difference.
* The outcome of every call that leaves the program (the loader, the directory
  stream, the CoreCLR hosting functions, the managed delegates, standard input) is
  an input of the embedding.
* A computation that does not return normally (a call through a null pointer, the
  use of a NULL directory stream, an uncaught `std::out_of_range`) has result
  `none`.
* Managed code is scripted and runs on the calling thread: the managed `Initialize`
  method makes its calls of the callback while the call `initializeDelegate(...)` is
  in progress, and likewise the managed `SayHello` method.  Callbacks delivered from
  other threads are outside the embedding.
* The trace of boundary calls kept in the state is an observer of the run; the
  program text does not read it.
-/

namespace OrleansClientCpp

/-- A C string: its characters up to, not including, the terminating NUL. -/
abbrev Str := List Char

/-- The three build configurations selected by the conditionals at lines 12-31:
`WINDOWS`, `LINUX`, and `LINUX` together with `OSX`. -/
inductive Platform where
  | WINDOWS
  | LINUX
  | OSX
  deriving DecidableEq, Repr

/-- The constant `ORLEANS_CLIENT_ASSEMBLY` (line 9). -/
def ORLEANS_CLIENT_ASSEMBLY : Str := "TestClient.dll".toList

/-- The constant `FS_SEPARATOR` (lines 14 and 21). -/
def FS_SEPARATOR : Platform → Str
  | .WINDOWS => "\\".toList
  | .LINUX => "/".toList
  | .OSX => "/".toList

/-- The constant `PATH_DELIMITER` (lines 15 and 22). -/
def PATH_DELIMITER : Platform → Str
  | .WINDOWS => ";".toList
  | .LINUX => ":".toList
  | .OSX => ":".toList

/-- The constant `CORECLR_FILE_NAME` (lines 16, 27 and 29). -/
def CORECLR_FILE_NAME : Platform → Str
  | .WINDOWS => "coreclr.dll".toList
  | .LINUX => "libcoreclr.so".toList
  | .OSX => "libcoreclr.dylib".toList

/-- Three-way lexicographic comparison of two character sequences, as
`std::char_traits<char>::compare` over the common length followed by the
comparison of the lengths: negative, zero or positive. -/
def compareChars : Str → Str → Int
  | [], [] => 0
  | [], _ :: _ => -1
  | _ :: _, [] => 1
  | a :: as, b :: bs =>
    if a < b then -1 else if b < a then 1 else compareChars as bs

/-- The call `s.compare(pos, len, t)` of `std::string`: compares the substring of `s`
that starts at `pos` and has at most `len` characters with the C string `t`.
Throws `std::out_of_range` (result `none`) when `pos > s.size()`. -/
def compare (s : Str) (pos len : Nat) (t : Str) : Option Int :=
  if s.length < pos then none
  else some (compareChars ((s.drop pos).take len) t)

/-- The body of the `while ((entry = readdir(dir)) != NULL)` loop of the POSIX
`BuildTpaList` (lines 316-341), run over the entries that `readdir` still has to
return; the accumulator is `tpaList`.  `extLength` and `extPos` are the `int`
variables of the source; their values are exact as long as both lengths are below
`2^31`, which `NAME_MAX` guarantees for the names and which holds for every extension
that a name can end with. -/
def readdirLoop (directory extension : Str) (sep delim : Str) : List Str → Str → Option Str
  | [], tpaList => some tpaList
  | d_name :: rest, tpaList =>
    let filename : Str := d_name
    let extLength : Int := extension.length
    let extPos : Int := (filename.length : Int) - extLength
    if extPos ≤ 0 then readdirLoop directory extension sep delim rest tpaList
    else
      match compare filename extPos.toNat extLength.toNat extension with
      | none => none
      | some c =>
        if c ≠ 0 then readdirLoop directory extension sep delim rest tpaList
        else
          readdirLoop directory extension sep delim rest
            (tpaList ++ directory ++ sep ++ filename ++ delim)

/-- The POSIX variant of `BuildTpaList` (lines 310-342).  `dir` is what
`opendir(directory)` returned: `none` for NULL, otherwise the names that successive
`readdir` calls return, in that order.  The function has no NULL test, so a NULL
stream reaches `readdir`, which is undefined behaviour: result `none`.  The variant
is compiled under `LINUX` only (with or without `OSX`), where `FS_SEPARATOR` is `/`
and `PATH_DELIMITER` is `:`. -/
def BuildTpaList_posix (directory extension : Str)
    (dir : Option (List Str)) (tpaList : Str) : Option Str :=
  match dir with
  | none => none
  | some entries =>
    readdirLoop directory extension (FS_SEPARATOR .LINUX) (PATH_DELIMITER .LINUX) entries tpaList

/-- The `do ... while (FindNextFileA(...))` loop of the Win32 `BuildTpaList`
(lines 288-303) after its first iteration: one append per further file found. -/
def findNextLoop (directory : Str) (sep delim : Str) : List Str → Str → Str
  | [], tpaList => tpaList
  | cFileName :: rest, tpaList =>
    findNextLoop directory sep delim rest (tpaList ++ directory ++ sep ++ cFileName ++ delim)

/-- The Win32 variant of `BuildTpaList` (lines 270-306).  `find` is the outcome of
`FindFirstFileA` on the search path `directory\*extension`: `none` for
`INVALID_HANDLE_VALUE`, otherwise the first file name found and the names the
successive `FindNextFileA` calls produce.  The variant is compiled under `WINDOWS`
only, where `FS_SEPARATOR` is a backslash and `PATH_DELIMITER` is `;`. -/
def BuildTpaList_win32 (directory _extension : Str)
    (find : Option (Str × List Str)) (tpaList : Str) : Option Str :=
  match find with
  | none => some tpaList
  | some (first, rest) =>
    some (findNextLoop directory (FS_SEPARATOR .WINDOWS) (PATH_DELIMITER .WINDOWS) rest
      (tpaList ++ directory ++ FS_SEPARATOR .WINDOWS ++ first ++ PATH_DELIMITER .WINDOWS))

/-- What the operating system answers to the directory scan of `BuildTpaList`. -/
structure DirScan where
  /-- Outcome of `opendir` and of the `readdir` calls (POSIX builds). -/
  opendir : Option (List Str)
  /-- Outcome of `FindFirstFileA` and of the `FindNextFileA` calls (Win32 builds). -/
  FindFirstFileA : Option (Str × List Str)

/-- The function `BuildTpaList`, in the variant the build configuration compiles. -/
def BuildTpaList (p : Platform) (directory extension : Str) (scan : DirScan)
    (tpaList : Str) : Option Str :=
  match p with
  | .WINDOWS => BuildTpaList_win32 directory extension scan.FindFirstFileA tpaList
  | .LINUX => BuildTpaList_posix directory extension scan.opendir tpaList
  | .OSX => BuildTpaList_posix directory extension scan.opendir tpaList

/-- The native functions whose addresses are handed to managed code as callbacks
(declared at lines 45-46). -/
inductive Callback where
  | OnInitialize
  | OnMessage
  deriving DecidableEq, Repr

/-- The calls that cross the boundary of the native host, in the order they happen.
Each constructor is named after the function pointer or function through which the
source makes the call. -/
inductive Event where
  /-- `LoadLibraryExA(coreClrPath)` / `dlopen(coreClrPath)` (lines 83, 85). -/
  | LoadLibrary (path : Str)
  /-- `GetProcAddress(coreClr, name)` / `dlsym(coreClr, name)` (lines 101-107). -/
  | GetProcAddress (coreClr : Nat) (name : Str)
  /-- The call through `initializeCoreClr`, that is `coreclr_initialize` (line 158). -/
  | initializeCoreClr (exePath appDomainFriendlyName : Str)
      (propertyKeys propertyValues : List Str)
  /-- A call through `createManagedDelegate`, that is `coreclr_create_delegate`
  (lines 185, 207). -/
  | createManagedDelegate (hostHandle domainId : Nat)
      (assemblyName typeName methodName : Str)
  /-- The assignment `sayHelloDelegate = sayHello` to the global (line 218). -/
  | assignSayHelloDelegate (sayHello : Nat)
  /-- The call `initializeDelegate(callback)` into managed code (line 226). -/
  | initializeDelegate (delegate : Nat) (callback : Callback)
  /-- The call `sayHelloDelegate(callback)` into managed code (line 259). -/
  | sayHelloDelegate (delegate : Nat) (callback : Callback)
  /-- Managed code enters the native callback `OnInitialize(success)`. -/
  | OnInitialize (success : Bool)
  /-- Managed code enters the native callback `OnMessage(message)`. -/
  | OnMessage (message : Str)
  /-- The call `getline(std::cin, s)` (line 230). -/
  | getline
  /-- The call through `shutdownCoreClr`, that is `coreclr_shutdown` (line 237). -/
  | shutdownCoreClr (hostHandle domainId : Nat)
  deriving DecidableEq, Repr

/-- The state of the process that the embedded functions read and write. -/
structure State where
  /-- Everything written to standard output so far (`printf`, `std::cout`). -/
  stdout : Str
  /-- The boundary calls made so far, oldest first. -/
  trace : List Event
  /-- The global `sayHelloDelegate` (line 48); `none` is the null pointer a global
  function pointer holds before its first assignment. -/
  sayHelloDelegate : Option Nat
  /-- What the managed `SayHello` method does at its coming invocations: for each
  invocation, the messages it passes, in order, to the callback it was given. -/
  managedSayHello : List (List Str)
  deriving DecidableEq, Repr

/-- Append `text` to standard output. -/
def State.print (s : State) (text : Str) : State :=
  { s with stdout := s.stdout ++ text }

/-- Record a boundary call. -/
def State.log (s : State) (e : Event) : State :=
  { s with trace := s.trace ++ [e] }

/-- The function `OnMessage` (lines 262-265): `std::cout << message << " - C++\n"`. -/
def OnMessage (message : Str) (s : State) : State :=
  ((s.log (.OnMessage message)).print message).print " - C++\n".toList

/-- The managed `SayHello` method behind a `sayhello_ptr`, called with `callback`: it
calls `callback` once for each message of its next scripted invocation. -/
def invokeSayHello (callback : Str → State → State) (s : State) : State :=
  match s.managedSayHello with
  | [] => s
  | messages :: later =>
    messages.foldl (fun st m => callback m st) { s with managedSayHello := later }

/-- The function `OnInitialize` (lines 252-260).  The call through the global
`sayHelloDelegate` does not return when the pointer is null. -/
def OnInitialize (success : Bool) (s : State) : Option State :=
  let s := s.log (.OnInitialize success)
  if !success then
    some (s.print "Failure connecting to Orleans Silo!".toList)
  else
    match s.sayHelloDelegate with
    | none => none
    | some delegate =>
      some (invokeSayHello OnMessage (s.log (.sayHelloDelegate delegate .OnMessage)))

/-- The managed `Initialize` method behind an `initialize_ptr`, called with
`callback`: it calls `callback` once for each flag of its script, in order, and
returns; it does not return if a callback does not. -/
def invokeInitialize (script : List Bool) (callback : Bool → State → Option State) :
    State → Option State :=
  fun s => script.foldlM (fun st success => callback success st) s

/-- The call `strrchr(s, c)`: the index of the last occurrence of `c` in `s`, `none`
for the null pointer. -/
def strrchr : Str → Char → Option Nat
  | [], _ => none
  | x :: xs, c =>
    match strrchr xs c with
    | some i => some (i + 1)
    | none => if x = c then some 0 else none

/-- The conversion `%08x` of `printf` applied to an `int`: the value as an unsigned
32-bit number in lower-case hexadecimal, padded with zeros to eight digits. -/
def hex08 (hr : Int) : Str :=
  let digits := Nat.toDigits 16 (hr % 4294967296).toNat
  List.replicate (8 - digits.length) '0' ++ digits

/-- The outcome of every external call that a run of `main` can make. -/
structure Env where
  /-- The content of `runtimePath` after `GetFullPathNameA` / `realpath` (lines 58, 60). -/
  fullPath : Str
  /-- Result of `LoadLibraryExA` / `dlopen`; `none` is NULL. -/
  coreClr : Option Nat
  /-- Result of the lookup of `coreclr_initialize`; `none` is NULL. -/
  initializeCoreClr : Option Nat
  /-- Result of the lookup of `coreclr_create_delegate`; `none` is NULL. -/
  createManagedDelegate : Option Nat
  /-- Result of the lookup of `coreclr_shutdown`; `none` is NULL. -/
  shutdownCoreClr : Option Nat
  /-- What the directory scan of `BuildTpaList` finds. -/
  scan : DirScan
  /-- Status returned by `coreclr_initialize`. -/
  initialize_hr : Int
  /-- Host handle written by `coreclr_initialize`. -/
  hostHandle : Nat
  /-- Domain id written by `coreclr_initialize`. -/
  domainId : Nat
  /-- Status returned by `coreclr_create_delegate` for `Initialize`. -/
  createInitialize_hr : Int
  /-- Delegate written by `coreclr_create_delegate` for `Initialize`. -/
  initializeDelegate : Nat
  /-- Status returned by `coreclr_create_delegate` for `SayHello`. -/
  createSayHello_hr : Int
  /-- Delegate written by `coreclr_create_delegate` for `SayHello`. -/
  sayHello : Nat
  /-- The flags the managed `Initialize` method passes to its callback, one call each. -/
  managedInitialize : List Bool
  /-- The messages the managed `SayHello` method passes to its callback, per invocation. -/
  managedSayHello : List (List Str)
  /-- Status returned by `coreclr_shutdown`. -/
  shutdown_hr : Int

/-- The content of `runtimePath` when `main` uses it: the full path of the
executable cut at its last separator (lines 56-65). -/
def runtimePath (p : Platform) (env : Env) : Str :=
  match strrchr env.fullPath ((FS_SEPARATOR p).headD (Char.ofNat 0)) with
  | some last_slash => env.fullPath.take last_slash
  | none => env.fullPath

/-- The function `main` (lines 50-250): the exit code (`none` when the run does not
return from `main`) and the final state. -/
def main (p : Platform) (env : Env) : Option Int × State :=
  let s : State := { stdout := [], trace := [], sayHelloDelegate := none,
                     managedSayHello := env.managedSayHello }
  -- lines 56-65
  let runtimePath : Str := runtimePath p env
  -- lines 70-72
  let coreClrPath : Str := runtimePath ++ FS_SEPARATOR p ++ CORECLR_FILE_NAME p
  -- lines 75-77 (the path is built and not used afterwards)
  let _managedLibraryPath : Str := runtimePath ++ FS_SEPARATOR p ++ ORLEANS_CLIENT_ASSEMBLY
  -- STEP 1, lines 83-95
  let s := s.log (.LoadLibrary coreClrPath)
  match env.coreClr with
  | none =>
    (some (-1), s.print ("ERROR: Failed to load CoreCLR from ".toList ++ coreClrPath ++ "\n".toList))
  | some coreClr =>
    let s := s.print ("Loaded CoreCLR from ".toList ++ coreClrPath ++ "\n".toList)
    -- STEP 2, lines 101-126
    let s := s.log (.GetProcAddress coreClr "coreclr_initialize".toList)
    let s := s.log (.GetProcAddress coreClr "coreclr_create_delegate".toList)
    let s := s.log (.GetProcAddress coreClr "coreclr_shutdown".toList)
    if env.initializeCoreClr = none then
      (some (-1), s.print "coreclr_initialize not found".toList)
    else if env.createManagedDelegate = none then
      (some (-1), s.print "coreclr_create_delegate not found".toList)
    else if env.shutdownCoreClr = none then
      (some (-1), s.print "coreclr_shutdown not found".toList)
    else
      -- STEP 3, lines 137-148
      match BuildTpaList p runtimePath ".dll".toList env.scan [] with
      | none => (none, s)
      | some tpaList =>
        -- STEP 4, lines 153-175
        let s := s.log (.initializeCoreClr runtimePath "OrleansClientCpp".toList
          ["TRUSTED_PLATFORM_ASSEMBLIES".toList] [tpaList])
        let hr := env.initialize_hr
        if 0 ≤ hr then
          let s := s.print "CoreCLR started\n".toList
          -- STEP 5, lines 181-201
          let s := s.log (.createManagedDelegate env.hostHandle env.domainId
            "TestClient, Version=1.0.0.0".toList "TestClient.OrleansClientWrapper".toList
            "Initialize".toList)
          let hr := env.createInitialize_hr
          if 0 ≤ hr then
            let s := s.print "Initialize delegate created\n".toList
            -- lines 203-224
            let s := s.log (.createManagedDelegate env.hostHandle env.domainId
              "TestClient, Version=1.0.0.0".toList "TestClient.OrleansClientWrapper".toList
              "SayHello".toList)
            let hr := env.createSayHello_hr
            if 0 ≤ hr then
              let s := s.print "OnMessage delegate created\n".toList
              let s := { s.log (.assignSayHelloDelegate env.sayHello) with
                         sayHelloDelegate := some env.sayHello }
              -- line 226
              let s := s.log (.initializeDelegate env.initializeDelegate .OnInitialize)
              match invokeInitialize env.managedInitialize OnInitialize s with
              | none => (none, s)
              | some s =>
                -- lines 228-230
                let s := s.print "Press any key to exit...".toList
                let s := s.log .getline
                -- STEP 6, lines 237-249
                let s := s.log (.shutdownCoreClr env.hostHandle env.domainId)
                let hr := env.shutdown_hr
                let s :=
                  if 0 ≤ hr then s.print "CoreCLR successfully shutdown\n".toList
                  else s.print ("coreclr_shutdown failed - status: 0x".toList ++ hex08 hr ++ "\n".toList)
                (some 0, s)
            else
              (some (-1),
                s.print ("coreclr_create_delegate failed - status: 0x".toList ++ hex08 hr ++ "\n".toList))
          else
            (some (-1),
              s.print ("coreclr_create_delegate failed - status: 0x".toList ++ hex08 hr ++ "\n".toList))
        else
          (some (-1),
            s.print ("coreclr_initialize failed - status: 0x".toList ++ hex08 hr ++ "\n".toList))

/-- The boundary calls that the callbacks add to the trace while the managed
`Initialize` method runs its script `flags`, when the global `sayHelloDelegate` holds
`delegate` and the managed `SayHello` method is scripted by `replies`. -/
def callbackEvents (delegate : Nat) : List Bool → List (List Str) → List Event
  | [], _ => []
  | false :: flags, replies => Event.OnInitialize false :: callbackEvents delegate flags replies
  | true :: flags, replies =>
    Event.OnInitialize true :: Event.sayHelloDelegate delegate .OnMessage ::
      ((replies.headD []).map Event.OnMessage ++ callbackEvents delegate flags replies.tail)

/-- The text the callbacks write while the managed `Initialize` method runs its
script `flags` and the managed `SayHello` method is scripted by `replies`. -/
def callbackOutput : List Bool → List (List Str) → Str
  | [], _ => []
  | false :: flags, replies =>
    "Failure connecting to Orleans Silo!".toList ++ callbackOutput flags replies
  | true :: flags, replies =>
    (replies.headD []).flatMap (fun m => m ++ " - C++\n".toList) ++ callbackOutput flags replies.tail

/-- What is left of the script of the managed `SayHello` method after the managed
`Initialize` method has run its script `flags`. -/
def callbackRest : List Bool → List (List Str) → List (List Str)
  | [], replies => replies
  | false :: flags, replies => callbackRest flags replies
  | true :: flags, replies => callbackRest flags replies.tail

/-- The steps of the bootstrap sequence of `main`. -/
inductive BootstrapCall where
  | LoadLibrary
  | CoreclrInitialize
  | CreateDelegate (methodName : Str)
  | InvokeInitializeDelegate
  | CoreclrShutdown
  deriving DecidableEq, Repr

/-- The bootstrap step that a boundary call is, for the calls that the body of
`main` makes into the runtime.  The symbol lookups go to the system loader, the call
through `sayHelloDelegate` is made by the callback `OnInitialize` (line 259) and the
callback entries are made by managed code: none of them is a step of `main`. -/
def Event.bootstrapCall : Event → Option BootstrapCall
  | .LoadLibrary _ => some .LoadLibrary
  | .initializeCoreClr _ _ _ _ => some .CoreclrInitialize
  | .createManagedDelegate _ _ _ _ methodName => some (.CreateDelegate methodName)
  | .initializeDelegate _ _ => some .InvokeInitializeDelegate
  | .shutdownCoreClr _ _ => some .CoreclrShutdown
  | _ => none

/-- The calls that `main` made into the runtime, in order. -/
def bootstrapCalls (trace : List Event) : List BootstrapCall :=
  trace.filterMap Event.bootstrapCall

/-- The fixed order of the bootstrap sequence. -/
def bootstrapOrder : List BootstrapCall :=
  [.LoadLibrary, .CoreclrInitialize, .CreateDelegate "Initialize".toList,
   .CreateDelegate "SayHello".toList, .InvokeInitializeDelegate, .CoreclrShutdown]

/-- Whether a boundary call is a call of `coreclr_shutdown`. -/
def Event.isShutdown : Event → Bool
  | .shutdownCoreClr _ _ => true
  | _ => false

/-- Whether a boundary call is a call of `coreclr_initialize`. -/
def Event.isCoreclrInitialize : Event → Bool
  | .initializeCoreClr _ _ _ _ => true
  | _ => false

/-- Whether a boundary call is a call through the global `sayHelloDelegate`. -/
def Event.isSayHelloCall : Event → Bool
  | .sayHelloDelegate _ _ => true
  | _ => false

/-- Whether a boundary call is an entry into the callback `OnMessage`. -/
def Event.isOnMessage : Event → Bool
  | .OnMessage _ => true
  | _ => false

/-- The boundary calls of steps 1 and 2 of `main`: the library load and, when it
succeeded with handle `coreClr`, the three symbol lookups. -/
def loadCalls (p : Platform) (env : Env) : List Event :=
  Event.LoadLibrary (runtimePath p env ++ FS_SEPARATOR p ++ CORECLR_FILE_NAME p) ::
    match env.coreClr with
    | none => []
    | some coreClr =>
      [Event.GetProcAddress coreClr "coreclr_initialize".toList,
       Event.GetProcAddress coreClr "coreclr_create_delegate".toList,
       Event.GetProcAddress coreClr "coreclr_shutdown".toList]

/-- The call of `coreclr_initialize` that `main` makes with the list `tpaList`. -/
def initializeCall (p : Platform) (env : Env) (tpaList : Str) : Event :=
  Event.initializeCoreClr (runtimePath p env) "OrleansClientCpp".toList
    ["TRUSTED_PLATFORM_ASSEMBLIES".toList] [tpaList]

/-- The call of `coreclr_create_delegate` that `main` makes for the method `methodName`. -/
def createDelegateCall (env : Env) (methodName : Str) : Event :=
  Event.createManagedDelegate env.hostHandle env.domainId
    "TestClient, Version=1.0.0.0".toList "TestClient.OrleansClientWrapper".toList methodName

/-- A run in which every step succeeds: the directory of the host holds `TestClient.dll`
and two other entries, the managed `Initialize` method reports success once and the
managed `SayHello` method sends one greeting; `coreclr_shutdown` fails with `E_FAIL`. -/
def helloEnv : Env where
  fullPath := "/opt/hello/OrleansClientCpp".toList
  coreClr := some 4096
  initializeCoreClr := some 4100
  createManagedDelegate := some 4104
  shutdownCoreClr := some 4108
  scan := { opendir := some [".".toList, "TestClient.dll".toList, "libcoreclr.so".toList],
            FindFirstFileA := none }
  initialize_hr := 0
  hostHandle := 77
  domainId := 1
  createInitialize_hr := 0
  initializeDelegate := 8192
  createSayHello_hr := 0
  sayHello := 8200
  managedInitialize := [true]
  managedSayHello := [["Hello from Orleans".toList]]
  shutdown_hr := -2147467259

/-- The run `helloEnv`, except that the method `Initialize` cannot be resolved:
the first `coreclr_create_delegate` call returns `COR_E_MISSINGMETHOD`. -/
def missingMethodEnv : Env :=
  { helloEnv with createInitialize_hr := -2146233069 }

/-! ## Lemmas on the directory scan -/

theorem OnMessage_eq (m : Str) (s : State) :
    OnMessage m s =
      { s with stdout := s.stdout ++ (m ++ " - C++\n".toList),
               trace := s.trace ++ [Event.OnMessage m] } := by
  simp [OnMessage, State.print, State.log]

theorem foldl_OnMessage (messages : List Str) (s : State) :
    messages.foldl (fun st m => OnMessage m st) s =
      { s with stdout := s.stdout ++ messages.flatMap (fun m => m ++ " - C++\n".toList),
               trace := s.trace ++ messages.map Event.OnMessage } := by
  induction messages generalizing s with
  | nil => simp
  | cons m rest ih =>
    rw [List.foldl_cons, ih]
    simp [OnMessage_eq, List.flatMap_cons]

theorem invokeSayHello_OnMessage (s : State) :
    invokeSayHello OnMessage s =
      { s with stdout := s.stdout ++
                 (s.managedSayHello.headD []).flatMap (fun m => m ++ " - C++\n".toList),
               trace := s.trace ++ (s.managedSayHello.headD []).map Event.OnMessage,
               managedSayHello := s.managedSayHello.tail } := by
  cases hm : s.managedSayHello with
  | nil =>
    cases s
    simp_all [invokeSayHello]
  | cons messages later =>
    simp [invokeSayHello, hm, foldl_OnMessage]

theorem OnInitialize_false (s : State) :
    OnInitialize false s =
      some { s with stdout := s.stdout ++ "Failure connecting to Orleans Silo!".toList,
                    trace := s.trace ++ [Event.OnInitialize false] } := by
  simp [OnInitialize, State.print, State.log]

theorem OnInitialize_true (s : State) (d : Nat) (h : s.sayHelloDelegate = some d) :
    OnInitialize true s =
      some { stdout := s.stdout ++
                 (s.managedSayHello.headD []).flatMap (fun m => m ++ " - C++\n".toList),
             trace := s.trace ++ (Event.OnInitialize true :: Event.sayHelloDelegate d .OnMessage ::
                 (s.managedSayHello.headD []).map Event.OnMessage),
             sayHelloDelegate := some d,
             managedSayHello := s.managedSayHello.tail } := by
  simp [OnInitialize, State.log, h, invokeSayHello_OnMessage]

theorem invokeInitialize_OnInitialize (d : Nat) (flags : List Bool) (s : State)
    (h : s.sayHelloDelegate = some d) :
    invokeInitialize flags OnInitialize s =
      some { stdout := s.stdout ++ callbackOutput flags s.managedSayHello,
             trace := s.trace ++ callbackEvents d flags s.managedSayHello,
             sayHelloDelegate := some d,
             managedSayHello := callbackRest flags s.managedSayHello } := by
  induction flags generalizing s with
  | nil =>
    cases s
    simp_all [invokeInitialize, callbackOutput, callbackEvents, callbackRest]
  | cons b rest ih =>
    unfold invokeInitialize at ih ⊢
    cases b with
    | false =>
      simp only [List.foldlM_cons, OnInitialize_false, Option.bind_eq_bind, Option.some_bind]
      refine (ih _ ?_).trans ?_
      · exact h
      · simp [callbackOutput, callbackEvents, callbackRest, List.append_assoc]
    | true =>
      simp only [List.foldlM_cons, OnInitialize_true s d h, Option.bind_eq_bind, Option.some_bind]
      refine (ih _ ?_).trans ?_
      · rfl
      · simp [callbackOutput, callbackEvents, callbackRest, List.append_assoc]

theorem callbackEvents_mem (d : Nat) (flags : List Bool) (replies : List (List Str))
    (e : Event) (he : e ∈ callbackEvents d flags replies) :
    (∃ b, e = Event.OnInitialize b) ∨ e = Event.sayHelloDelegate d .OnMessage ∨
      (∃ m, e = Event.OnMessage m) := by
  induction flags generalizing replies with
  | nil => simp [callbackEvents] at he
  | cons b rest ih =>
    cases b with
    | false =>
      simp only [callbackEvents, List.mem_cons] at he
      rcases he with he | he
      · exact Or.inl ⟨false, he⟩
      · exact ih _ he
    | true =>
      simp only [callbackEvents, List.mem_cons, List.mem_append, List.mem_map] at he
      rcases he with he | he | ⟨m, _, hm⟩ | he
      · exact Or.inl ⟨true, he⟩
      · exact Or.inr (Or.inl he)
      · exact Or.inr (Or.inr ⟨m, hm.symm⟩)
      · exact ih _ he

theorem bootstrapCalls_callbackEvents (d : Nat) (flags : List Bool)
    (replies : List (List Str)) :
    bootstrapCalls (callbackEvents d flags replies) = [] := by
  unfold bootstrapCalls
  rw [List.filterMap_eq_nil_iff]
  intro e he
  rcases callbackEvents_mem d flags replies e he with ⟨b, rfl⟩ | rfl | ⟨m, rfl⟩ <;> rfl

theorem filter_isShutdown_callbackEvents (d : Nat) (flags : List Bool)
    (replies : List (List Str)) :
    (callbackEvents d flags replies).filter Event.isShutdown = [] := by
  rw [List.filter_eq_nil_iff]
  intro e he
  rcases callbackEvents_mem d flags replies e he with ⟨b, rfl⟩ | rfl | ⟨m, rfl⟩ <;> simp [Event.isShutdown]

theorem count_sayHelloCall_callbackEvents (d : Nat) (flags : List Bool)
    (replies : List (List Str)) :
    ((callbackEvents d flags replies).filter Event.isSayHelloCall).length = flags.count true := by
  induction flags generalizing replies with
  | nil => simp [callbackEvents]
  | cons b rest ih =>
    cases b with
    | false => simp [callbackEvents, Event.isSayHelloCall, List.filter_cons, ih]
    | true =>
      have hmap : ∀ l : List Str, (l.map Event.OnMessage).filter Event.isSayHelloCall = [] := by
        intro l
        rw [List.filter_eq_nil_iff]
        intro e he
        rcases List.mem_map.mp he with ⟨m, _, rfl⟩
        simp [Event.isSayHelloCall]
      simp [callbackEvents, Event.isSayHelloCall, List.filter_cons, ih, hmap]

/-- The seven ways a run of `main` can go, each with its exit code and its trace of
boundary calls. -/
theorem main_cases (p : Platform) (env : Env) :
    (env.coreClr = none ∧ (main p env).1 = some (-1) ∧ (main p env).2.trace = loadCalls p env) ∨
    (env.coreClr ≠ none ∧
      (env.initializeCoreClr = none ∨ env.createManagedDelegate = none ∨
        env.shutdownCoreClr = none) ∧
      (main p env).1 = some (-1) ∧ (main p env).2.trace = loadCalls p env) ∨
    (env.coreClr ≠ none ∧ env.initializeCoreClr ≠ none ∧ env.createManagedDelegate ≠ none ∧
      env.shutdownCoreClr ≠ none ∧
      BuildTpaList p (runtimePath p env) ".dll".toList env.scan [] = none ∧
      (main p env).1 = none ∧ (main p env).2.trace = loadCalls p env) ∨
    (∃ tpaList, env.coreClr ≠ none ∧ env.initializeCoreClr ≠ none ∧
      env.createManagedDelegate ≠ none ∧ env.shutdownCoreClr ≠ none ∧
      BuildTpaList p (runtimePath p env) ".dll".toList env.scan [] = some tpaList ∧
      env.initialize_hr < 0 ∧
      (main p env).1 = some (-1) ∧
      (main p env).2.trace = loadCalls p env ++ [initializeCall p env tpaList]) ∨
    (∃ tpaList, env.coreClr ≠ none ∧ env.initializeCoreClr ≠ none ∧
      env.createManagedDelegate ≠ none ∧ env.shutdownCoreClr ≠ none ∧
      BuildTpaList p (runtimePath p env) ".dll".toList env.scan [] = some tpaList ∧
      0 ≤ env.initialize_hr ∧ env.createInitialize_hr < 0 ∧
      (main p env).1 = some (-1) ∧
      (main p env).2.trace = loadCalls p env ++
        [initializeCall p env tpaList, createDelegateCall env "Initialize".toList]) ∨
    (∃ tpaList, env.coreClr ≠ none ∧ env.initializeCoreClr ≠ none ∧
      env.createManagedDelegate ≠ none ∧ env.shutdownCoreClr ≠ none ∧
      BuildTpaList p (runtimePath p env) ".dll".toList env.scan [] = some tpaList ∧
      0 ≤ env.initialize_hr ∧ 0 ≤ env.createInitialize_hr ∧ env.createSayHello_hr < 0 ∧
      (main p env).1 = some (-1) ∧
      (main p env).2.trace = loadCalls p env ++
        [initializeCall p env tpaList, createDelegateCall env "Initialize".toList,
         createDelegateCall env "SayHello".toList]) ∨
    (∃ tpaList, env.coreClr ≠ none ∧ env.initializeCoreClr ≠ none ∧
      env.createManagedDelegate ≠ none ∧ env.shutdownCoreClr ≠ none ∧
      BuildTpaList p (runtimePath p env) ".dll".toList env.scan [] = some tpaList ∧
      0 ≤ env.initialize_hr ∧ 0 ≤ env.createInitialize_hr ∧ 0 ≤ env.createSayHello_hr ∧
      (main p env).1 = some 0 ∧
      (main p env).2.sayHelloDelegate = some env.sayHello ∧
      (main p env).2.trace = (loadCalls p env ++
        [initializeCall p env tpaList, createDelegateCall env "Initialize".toList,
         createDelegateCall env "SayHello".toList,
         Event.assignSayHelloDelegate env.sayHello]) ++
        Event.initializeDelegate env.initializeDelegate .OnInitialize ::
        (callbackEvents env.sayHello env.managedInitialize env.managedSayHello ++
          [Event.getline, Event.shutdownCoreClr env.hostHandle env.domainId])) := by
  rcases hload : env.coreClr with _ | coreClr
  · left
    simp only [main, hload, if_true, if_false, not_true_eq_false, not_false_eq_true, State.log, State.print]
    simp [loadCalls, initializeCall, createDelegateCall, hload]
  right
  by_cases h1 : env.initializeCoreClr = none
  · left
    simp only [main, hload, h1, if_true, if_false, not_true_eq_false, not_false_eq_true, State.log, State.print]
    simp [loadCalls, initializeCall, createDelegateCall, hload, h1]
  by_cases h2 : env.createManagedDelegate = none
  · left
    simp only [main, hload, h1, h2, if_true, if_false, not_true_eq_false, not_false_eq_true, State.log, State.print]
    simp [loadCalls, initializeCall, createDelegateCall, hload, h1, h2]
  by_cases h3 : env.shutdownCoreClr = none
  · left
    simp only [main, hload, h1, h2, h3, if_true, if_false, not_true_eq_false, not_false_eq_true, State.log, State.print]
    simp [loadCalls, initializeCall, createDelegateCall, hload, h1, h2, h3]
  right
  rcases hscan : BuildTpaList p (runtimePath p env) ".dll".toList env.scan [] with _ | tpaList
  · left
    simp only [main, hload, h1, h2, h3, hscan, if_true, if_false, not_true_eq_false, not_false_eq_true, State.log, State.print]
    simp [loadCalls, initializeCall, createDelegateCall, hload, h1, h2, h3, hscan]
  right
  by_cases hi : 0 ≤ env.initialize_hr
  swap
  · left
    refine ⟨tpaList, ?_⟩
    simp only [main, hload, h1, h2, h3, hscan, hi, if_true, if_false, not_true_eq_false, not_false_eq_true, State.log, State.print]
    simp [loadCalls, initializeCall, createDelegateCall, hload, h1, h2, h3, hscan, hi]
    omega
  right
  by_cases hd1 : 0 ≤ env.createInitialize_hr
  swap
  · left
    refine ⟨tpaList, ?_⟩
    simp only [main, hload, h1, h2, h3, hscan, hi, hd1, if_true, if_false, not_true_eq_false, not_false_eq_true, State.log, State.print]
    simp [loadCalls, initializeCall, createDelegateCall, hload, h1, h2, h3, hscan, hi, hd1]
    omega
  right
  by_cases hd2 : 0 ≤ env.createSayHello_hr
  swap
  · left
    refine ⟨tpaList, ?_⟩
    simp only [main, hload, h1, h2, h3, hscan, hi, hd1, hd2, if_true, if_false, not_true_eq_false, not_false_eq_true, State.log, State.print]
    simp [loadCalls, initializeCall, createDelegateCall, hload, h1, h2, h3, hscan, hi, hd1, hd2]
    omega
  right
  refine ⟨tpaList, ?_⟩
  have hs : (main p env).1 = some 0 ∧
      (main p env).2.sayHelloDelegate = some env.sayHello ∧
      (main p env).2.trace =
        (loadCalls p env ++
          [initializeCall p env tpaList, createDelegateCall env "Initialize".toList,
           createDelegateCall env "SayHello".toList,
           Event.assignSayHelloDelegate env.sayHello]) ++
        Event.initializeDelegate env.initializeDelegate .OnInitialize ::
        (callbackEvents env.sayHello env.managedInitialize env.managedSayHello ++
          [Event.getline, Event.shutdownCoreClr env.hostHandle env.domainId]) := by
    simp only [main, hload, h1, h2, h3, hscan, hi, hd1, hd2, if_true, if_false, State.log,
      State.print]
    rw [invokeInitialize_OnInitialize env.sayHello _ _ rfl]
    by_cases hs : 0 ≤ env.shutdown_hr <;>
      simp [hs, loadCalls, hload, initializeCall, createDelegateCall]
  simp only [hload] at hs ⊢
  exact ⟨by simp, h1, h2, h3, trivial, hi, hd1, hd2, hs⟩

/-! ## The trusted-platform-assembly list (POSIX variant) -/

/-- C4 at the failing input: when the directory cannot be opened, the Win32 variant
tests the handle and returns with `tpaList` unchanged, but the POSIX variant hands the
NULL stream to `readdir` and does not return normally. -/
theorem BuildTpaList_posix_null_stream :
    BuildTpaList_win32 "/nonexistent".toList ".dll".toList none [] = some [] ∧
    BuildTpaList_posix "/nonexistent".toList ".dll".toList none [] = none ∧
    BuildTpaList .LINUX "/nonexistent".toList ".dll".toList
      { opendir := none, FindFirstFileA := none } [] = none := by
  decide

/-! ## The callbacks -/

/-- C6: for every message `m`, `OnMessage m` writes to the output exactly `m` followed
by the fixed suffix `" - C++\n"`; the message is written unchanged and in full, and
nothing else is written.  The callback touches nothing else: it makes no call and
leaves the global `sayHelloDelegate` as it is. -/
theorem OnMessage_output (m : Str) (s : State) :
    (OnMessage m s).stdout = s.stdout ++ m ++ " - C++\n".toList ∧
    (OnMessage m { s with stdout := [] }).stdout = m ++ " - C++\n".toList ∧
    (OnMessage m s).trace = s.trace ++ [Event.OnMessage m] ∧
    (OnMessage m s).sayHelloDelegate = s.sayHelloDelegate := by
  simp [OnMessage, State.print, State.log]

/-- C5: `OnInitialize` calls through the stored `sayHelloDelegate` if and only if
`success` is true.  For `success = false` it writes the failure text and makes no call:
no delegate is invoked and `OnMessage` is not entered.  For `success = true`, with the
global holding the delegate `d`, it makes exactly one call, `sayHelloDelegate(OnMessage)`,
and writes nothing itself: the output grows only by what the `OnMessage` calls made by
the managed method write. -/
theorem OnInitialize_calls_iff_success (s : State) (d : Nat)
    (hset : s.sayHelloDelegate = some d) :
    (∃ s1, OnInitialize false s = some s1 ∧
      s1.stdout = s.stdout ++ "Failure connecting to Orleans Silo!".toList ∧
      s1.trace = s.trace ++ [Event.OnInitialize false] ∧
      s1.sayHelloDelegate = s.sayHelloDelegate ∧ s1.managedSayHello = s.managedSayHello) ∧
    (∃ s2, OnInitialize true s = some s2 ∧
      s2.trace = s.trace ++ [Event.OnInitialize true, Event.sayHelloDelegate d .OnMessage] ++
        (s.managedSayHello.headD []).map Event.OnMessage ∧
      s2.stdout = s.stdout ++
        (s.managedSayHello.headD []).flatMap (fun m => m ++ " - C++\n".toList) ∧
      s2.sayHelloDelegate = some d) ∧
    (∀ success s3, OnInitialize success s = some s3 →
      (s3.trace.filter Event.isSayHelloCall).length =
        (s.trace.filter Event.isSayHelloCall).length + (if success then 1 else 0) ∧
      (success = false →
        (s3.trace.filter Event.isOnMessage).length =
          (s.trace.filter Event.isOnMessage).length)) := by
  have hmap : ∀ l : List Str, (l.map Event.OnMessage).filter Event.isSayHelloCall = [] := by
    intro l
    rw [List.filter_eq_nil_iff]
    intro e he
    rcases List.mem_map.mp he with ⟨m, _, rfl⟩
    simp [Event.isSayHelloCall]
  refine ⟨⟨_, OnInitialize_false s, rfl, rfl, rfl, rfl⟩,
    ⟨_, OnInitialize_true s d hset, by simp, rfl, rfl⟩, ?_⟩
  intro success s3 h3
  cases success with
  | false =>
    rw [OnInitialize_false] at h3
    cases h3
    simp [Event.isSayHelloCall, Event.isOnMessage]
  | true =>
    rw [OnInitialize_true s d hset] at h3
    cases h3
    simp [Event.isSayHelloCall, List.filter_cons, hmap]

/-- C5 at a concrete state: the global holds the delegate `8200`, whose managed method
sends one greeting. -/
theorem OnInitialize_calls_iff_success_witness :
    (∃ s2, OnInitialize true
        { stdout := [], trace := [], sayHelloDelegate := some 8200,
          managedSayHello := [["Hello".toList]] } = some s2 ∧
      s2.trace = [Event.OnInitialize true, Event.sayHelloDelegate 8200 .OnMessage,
        Event.OnMessage "Hello".toList] ∧
      s2.stdout = "Hello - C++\n".toList) ∧
    (∃ s1, OnInitialize false
        { stdout := [], trace := [], sayHelloDelegate := some 8200,
          managedSayHello := [["Hello".toList]] } = some s1 ∧
      s1.trace = [Event.OnInitialize false] ∧
      s1.stdout = "Failure connecting to Orleans Silo!".toList) := by
  have h := OnInitialize_calls_iff_success
    { stdout := [], trace := [], sayHelloDelegate := some 8200,
      managedSayHello := [["Hello".toList]] } 8200 rfl
  obtain ⟨⟨s1, h1, hout1, htrace1, _, _⟩, ⟨s2, h2, htrace2, hout2, _⟩, _⟩ := h
  exact ⟨⟨s2, h2, by simpa using htrace2, by simpa using hout2⟩,
    ⟨s1, h1, by simpa using htrace1, by simpa using hout1⟩⟩

/-! ## The bootstrap sequence of `main` -/

theorem loadCalls_mem (p : Platform) (env : Env) (e : Event) (he : e ∈ loadCalls p env) :
    (∃ path, e = Event.LoadLibrary path) ∨ (∃ c name, e = Event.GetProcAddress c name) := by
  unfold loadCalls at he
  cases hload : env.coreClr with
  | none =>
    simp only [hload, List.mem_cons, List.not_mem_nil, or_false] at he
    exact Or.inl ⟨_, he⟩
  | some c =>
    simp only [hload, List.mem_cons, List.not_mem_nil, or_false] at he
    rcases he with he | he | he | he
    · exact Or.inl ⟨_, he⟩
    · exact Or.inr ⟨_, _, he⟩
    · exact Or.inr ⟨_, _, he⟩
    · exact Or.inr ⟨_, _, he⟩

theorem bootstrapCalls_loadCalls (p : Platform) (env : Env) :
    bootstrapCalls (loadCalls p env) = [BootstrapCall.LoadLibrary] := by
  unfold loadCalls bootstrapCalls
  cases env.coreClr <;> simp [Event.bootstrapCall]

theorem bootstrapCalls_append (t u : List Event) :
    bootstrapCalls (t ++ u) = bootstrapCalls t ++ bootstrapCalls u := by
  simp [bootstrapCalls]

theorem filter_isShutdown_loadCalls (p : Platform) (env : Env) :
    (loadCalls p env).filter Event.isShutdown = [] := by
  rw [List.filter_eq_nil_iff]
  intro e he
  rcases loadCalls_mem p env e he with ⟨path, rfl⟩ | ⟨c, name, rfl⟩ <;> simp [Event.isShutdown]

theorem any_isCoreclrInitialize_loadCalls (p : Platform) (env : Env) :
    (loadCalls p env).any Event.isCoreclrInitialize = false := by
  rw [List.any_eq_false]
  intro e he
  rcases loadCalls_mem p env e he with ⟨path, rfl⟩ | ⟨c, name, rfl⟩ <;>
    simp [Event.isCoreclrInitialize]

/-- C3, as the code has it: in every run of `main` in which `coreclr_initialize` was
called and returned a non-negative status, `coreclr_shutdown` is called exactly once,
as the last call before `main` returns `0`, when both `coreclr_create_delegate` calls
return a non-negative status; when one of them returns a negative status, `main`
returns `-1` at once and `coreclr_shutdown` is not called. -/
theorem main_shutdown_calls (p : Platform) (env : Env)
    (hcalled : (main p env).2.trace.any Event.isCoreclrInitialize = true)
    (hinit : 0 ≤ env.initialize_hr) :
    (0 ≤ env.createInitialize_hr ∧ 0 ≤ env.createSayHello_hr →
      (main p env).1 = some 0 ∧
      ((main p env).2.trace.filter Event.isShutdown).length = 1 ∧
      (main p env).2.trace.getLast? = some (Event.shutdownCoreClr env.hostHandle env.domainId)) ∧
    (env.createInitialize_hr < 0 ∨ env.createSayHello_hr < 0 →
      (main p env).1 = some (-1) ∧
      ((main p env).2.trace.filter Event.isShutdown).length = 0) := by
  rcases main_cases p env with
    ⟨_, _, htrace⟩ | ⟨_, _, _, htrace⟩ | ⟨_, _, _, _, _, _, htrace⟩ |
    ⟨t, _, _, _, _, _, hi, _, _⟩ | ⟨t, _, _, _, _, _, _, hd1, hexit, htrace⟩ |
    ⟨t, _, _, _, _, _, _, hd1, hd2, hexit, htrace⟩ |
    ⟨t, _, _, _, _, _, _, hd1, hd2, hexit, _, htrace⟩
  · rw [htrace, any_isCoreclrInitialize_loadCalls] at hcalled
    cases hcalled
  · rw [htrace, any_isCoreclrInitialize_loadCalls] at hcalled
    cases hcalled
  · rw [htrace, any_isCoreclrInitialize_loadCalls] at hcalled
    cases hcalled
  · omega
  · refine ⟨fun h => by omega, fun _ => ⟨hexit, ?_⟩⟩
    rw [htrace, List.filter_append, filter_isShutdown_loadCalls]
    simp [initializeCall, createDelegateCall, Event.isShutdown]
  · refine ⟨fun h => by omega, fun _ => ⟨hexit, ?_⟩⟩
    rw [htrace, List.filter_append, filter_isShutdown_loadCalls]
    simp [initializeCall, createDelegateCall, Event.isShutdown]
  · refine ⟨fun _ => ⟨hexit, ?_, ?_⟩, fun h => by omega⟩
    · rw [htrace]
      simp only [List.filter_append, List.filter_cons, filter_isShutdown_loadCalls,
        filter_isShutdown_callbackEvents]
      simp [initializeCall, createDelegateCall, Event.isShutdown]
    · have hlast : (main p env).2.trace =
          (loadCalls p env ++
            [initializeCall p env t, createDelegateCall env "Initialize".toList,
             createDelegateCall env "SayHello".toList,
             Event.assignSayHelloDelegate env.sayHello] ++
            Event.initializeDelegate env.initializeDelegate .OnInitialize ::
            (callbackEvents env.sayHello env.managedInitialize env.managedSayHello ++
              [Event.getline])) ++ [Event.shutdownCoreClr env.hostHandle env.domainId] := by
        rw [htrace]
        simp
      rw [hlast, List.getLast?_concat]

/-- C3 at a concrete run: every step succeeds, and the one `coreclr_shutdown` call is
the last call of the run. -/
theorem main_shutdown_calls_witness :
    (main .LINUX helloEnv).1 = some 0 ∧
    ((main .LINUX helloEnv).2.trace.filter Event.isShutdown).length = 1 ∧
    (main .LINUX helloEnv).2.trace.getLast? = some (Event.shutdownCoreClr 77 1) :=
  (main_shutdown_calls .LINUX helloEnv (by decide) (by decide)).1 (by decide)

/-- C3, as the claim states it, fails: in the run `missingMethodEnv`,
`coreclr_initialize` is called and returns the non-negative status `0`, the first
`coreclr_create_delegate` call returns a negative status, and `main` returns `-1`
without any call of `coreclr_shutdown`. -/
theorem main_returns_without_shutdown :
    (main .LINUX missingMethodEnv).2.trace.any Event.isCoreclrInitialize = true ∧
    0 ≤ missingMethodEnv.initialize_hr ∧
    missingMethodEnv.createInitialize_hr < 0 ∧
    (main .LINUX missingMethodEnv).1 = some (-1) ∧
    ((main .LINUX missingMethodEnv).2.trace.filter Event.isShutdown).length = 0 ∧
    ((main .LINUX missingMethodEnv).2.trace.filter Event.isShutdown).length ≠ 1 := by
  decide

/-- C7: in every run of `main`, the calls that `main` makes into the runtime are a
prefix of the fixed order: load the library, `coreclr_initialize`,
`coreclr_create_delegate` for `Initialize`, `coreclr_create_delegate` for `SayHello`,
invoke the `Initialize` delegate, `coreclr_shutdown`; no step is made twice.  If the
library load fails, `coreclr_initialize` is not called, and `coreclr_shutdown` is
called only after `coreclr_initialize` was called and returned a non-negative status. -/
theorem main_bootstrap_order (p : Platform) (env : Env) :
    bootstrapCalls (main p env).2.trace <+: bootstrapOrder ∧
    (bootstrapCalls (main p env).2.trace).Nodup ∧
    (env.coreClr = none →
      bootstrapCalls (main p env).2.trace = [BootstrapCall.LoadLibrary]) ∧
    (BootstrapCall.CoreclrShutdown ∈ bootstrapCalls (main p env).2.trace →
      BootstrapCall.CoreclrInitialize ∈ bootstrapCalls (main p env).2.trace ∧
      0 ≤ env.initialize_hr) := by
  have hnodup : bootstrapOrder.Nodup := by decide
  have hord : bootstrapCalls (main p env).2.trace <+: bootstrapOrder ∧
      (env.coreClr = none →
        bootstrapCalls (main p env).2.trace = [BootstrapCall.LoadLibrary]) ∧
      (BootstrapCall.CoreclrShutdown ∈ bootstrapCalls (main p env).2.trace →
        BootstrapCall.CoreclrInitialize ∈ bootstrapCalls (main p env).2.trace ∧
        0 ≤ env.initialize_hr) := by
    rcases main_cases p env with
      ⟨_, _, htrace⟩ | ⟨_, _, _, htrace⟩ | ⟨_, _, _, _, _, _, htrace⟩ |
      ⟨t, hload, _, _, _, _, _, _, htrace⟩ | ⟨t, hload, _, _, _, _, _, _, _, htrace⟩ |
      ⟨t, hload, _, _, _, _, _, _, _, _, htrace⟩ |
      ⟨t, hload, _, _, _, _, hi, _, _, _, _, htrace⟩
    · rw [htrace, bootstrapCalls_loadCalls]
      exact ⟨by decide, fun _ => rfl, fun h => by simp at h⟩
    · rw [htrace, bootstrapCalls_loadCalls]
      exact ⟨by decide, fun _ => rfl, fun h => by simp at h⟩
    · rw [htrace, bootstrapCalls_loadCalls]
      exact ⟨by decide, fun _ => rfl, fun h => by simp at h⟩
    · have hcalls : bootstrapCalls (main p env).2.trace =
          [BootstrapCall.LoadLibrary, BootstrapCall.CoreclrInitialize] := by
        rw [htrace, bootstrapCalls_append, bootstrapCalls_loadCalls]
        rfl
      rw [hcalls]
      exact ⟨by decide, fun h => absurd h hload, fun h => absurd h (by decide)⟩
    · have hcalls : bootstrapCalls (main p env).2.trace =
          [BootstrapCall.LoadLibrary, BootstrapCall.CoreclrInitialize,
           BootstrapCall.CreateDelegate "Initialize".toList] := by
        rw [htrace, bootstrapCalls_append, bootstrapCalls_loadCalls]
        rfl
      rw [hcalls]
      exact ⟨by decide, fun h => absurd h hload, fun h => absurd h (by decide)⟩
    · have hcalls : bootstrapCalls (main p env).2.trace =
          [BootstrapCall.LoadLibrary, BootstrapCall.CoreclrInitialize,
           BootstrapCall.CreateDelegate "Initialize".toList,
           BootstrapCall.CreateDelegate "SayHello".toList] := by
        rw [htrace, bootstrapCalls_append, bootstrapCalls_loadCalls]
        rfl
      rw [hcalls]
      exact ⟨by decide, fun h => absurd h hload, fun h => absurd h (by decide)⟩
    · have hcalls : bootstrapCalls (main p env).2.trace = bootstrapOrder := by
        have hcons : bootstrapCalls
            (Event.initializeDelegate env.initializeDelegate .OnInitialize ::
              (callbackEvents env.sayHello env.managedInitialize env.managedSayHello ++
                [Event.getline, Event.shutdownCoreClr env.hostHandle env.domainId])) =
            [BootstrapCall.InvokeInitializeDelegate, BootstrapCall.CoreclrShutdown] := by
          rw [show ∀ (e : Event) (u : List Event), e :: u = [e] ++ u from fun _ _ => rfl,
            bootstrapCalls_append, bootstrapCalls_append, bootstrapCalls_callbackEvents]
          rfl
        rw [htrace, bootstrapCalls_append, bootstrapCalls_append, bootstrapCalls_loadCalls,
          hcons]
        rfl
      rw [hcalls]
      exact ⟨List.prefix_refl _, fun h => absurd h hload, fun _ => ⟨by decide, hi⟩⟩
  exact ⟨hord.1, hord.1.sublist.nodup hnodup, hord.2⟩

/-- C10, written-before-publish: in every run of `main` in which the `Initialize`
delegate is invoked with `OnInitialize` (the calls before it are `before`, the calls
after it `after`), the second `coreclr_create_delegate` call had returned a
non-negative status and the global `sayHelloDelegate` was assigned the delegate resolved
for `SayHello` before the invocation, by the only assignment of the run; no assignment
follows, and the global still holds that delegate when `main` returns.  Hence every
call through `sayHelloDelegate` comes after the assignment and goes to the resolved
delegate with `OnMessage` as callback, there is one such call for each
`OnInitialize(true)` callback, and none goes through a null pointer: `main` returns `0`. -/
theorem sayHelloDelegate_written_before_publish (p : Platform) (env : Env)
    (before after : List Event) (delegate : Nat)
    (hrun : (main p env).2.trace =
      before ++ Event.initializeDelegate delegate .OnInitialize :: after) :
    0 ≤ env.createSayHello_hr ∧
    delegate = env.initializeDelegate ∧
    Event.assignSayHelloDelegate env.sayHello ∈ before ∧
    (∀ q, Event.assignSayHelloDelegate q ∈ before → q = env.sayHello) ∧
    (∀ q, Event.assignSayHelloDelegate q ∉ after) ∧
    (∀ q c, Event.sayHelloDelegate q c ∉ before) ∧
    (∀ q c, Event.sayHelloDelegate q c ∈ after → q = env.sayHello ∧ c = Callback.OnMessage) ∧
    (after.filter Event.isSayHelloCall).length = env.managedInitialize.count true ∧
    (main p env).2.sayHelloDelegate = some env.sayHello ∧
    (main p env).1 = some 0 := by
  have hmem : Event.initializeDelegate delegate .OnInitialize ∈ (main p env).2.trace := by
    rw [hrun]
    simp
  have hload : ∀ d c, Event.initializeDelegate d c ∉ loadCalls p env := by
    intro d c h
    rcases loadCalls_mem p env _ h with ⟨path, h⟩ | ⟨c, name, h⟩ <;> cases h
  rcases main_cases p env with
    ⟨_, _, htrace⟩ | ⟨_, _, _, htrace⟩ | ⟨_, _, _, _, _, _, htrace⟩ |
    ⟨t, _, _, _, _, _, _, _, htrace⟩ | ⟨t, _, _, _, _, _, _, _, _, htrace⟩ |
    ⟨t, _, _, _, _, _, _, _, _, _, htrace⟩ |
    ⟨t, _, _, _, _, _, _, _, hd2, hexit, hglobal, htrace⟩
  · rw [htrace] at hmem
    exact absurd hmem (hload _ _)
  · rw [htrace] at hmem
    exact absurd hmem (hload _ _)
  · rw [htrace] at hmem
    exact absurd hmem (hload _ _)
  · rw [htrace, List.mem_append] at hmem
    rcases hmem with h | h
    · exact absurd h (hload _ _)
    · simp [initializeCall] at h
  · rw [htrace, List.mem_append] at hmem
    rcases hmem with h | h
    · exact absurd h (hload _ _)
    · simp [initializeCall, createDelegateCall] at h
  · rw [htrace, List.mem_append] at hmem
    rcases hmem with h | h
    · exact absurd h (hload _ _)
    · simp [initializeCall, createDelegateCall] at h
  · have hpre : ∀ e ∈ loadCalls p env ++
        [initializeCall p env t, createDelegateCall env "Initialize".toList,
         createDelegateCall env "SayHello".toList,
         Event.assignSayHelloDelegate env.sayHello],
        (∀ d c, e ≠ Event.initializeDelegate d c) ∧ (∀ q c, e ≠ Event.sayHelloDelegate q c) ∧
        (∀ q, e = Event.assignSayHelloDelegate q → q = env.sayHello) := by
      intro e he
      rw [List.mem_append] at he
      rcases he with he | he
      · rcases loadCalls_mem p env e he with ⟨path, rfl⟩ | ⟨c, name, rfl⟩ <;> simp
      · simp only [List.mem_cons, List.not_mem_nil, or_false] at he
        rcases he with rfl | rfl | rfl | rfl <;>
          simp [initializeCall, createDelegateCall]
    have hpost : ∀ e ∈ callbackEvents env.sayHello env.managedInitialize env.managedSayHello ++
        [Event.getline, Event.shutdownCoreClr env.hostHandle env.domainId],
        (∀ d c, e ≠ Event.initializeDelegate d c) ∧ (∀ q, e ≠ Event.assignSayHelloDelegate q) ∧
        (∀ q c, e = Event.sayHelloDelegate q c → q = env.sayHello ∧ c = Callback.OnMessage) := by
      intro e he
      rw [List.mem_append] at he
      rcases he with he | he
      · rcases callbackEvents_mem _ _ _ e he with ⟨b, rfl⟩ | rfl | ⟨m, rfl⟩ <;> simp
      · simp only [List.mem_cons, List.not_mem_nil, or_false] at he
        rcases he with rfl | rfl <;> simp
    rw [htrace] at hrun
    have hsplit := (List.append_cons_inj_of_not_mem
      (fun h => (hpre _ h).1 _ _ rfl) (fun h => (hpost _ h).1 _ _ rfl)).mp hrun
    obtain ⟨hbefore, hcall, hafter⟩ := hsplit
    subst hbefore
    subst hafter
    refine ⟨hd2, ?_, ?_, ?_, ?_, ?_, ?_, ?_, hglobal, hexit⟩
    · cases hcall
      rfl
    · simp
    · intro q hq
      exact (hpre _ hq).2.2 q rfl
    · intro q hq
      exact (hpost _ hq).2.1 q rfl
    · intro q c hq
      exact (hpre _ hq).2.1 q c rfl
    · intro q c hq
      exact (hpost _ hq).2.2 q c rfl
    · rw [List.filter_append, List.length_append, count_sayHelloCall_callbackEvents]
      simp [Event.isSayHelloCall]

/-- C10 at a concrete run: in `helloEnv` the delegate `8200` resolved for `SayHello` is
stored before the `Initialize` delegate `8192` is invoked, and the one call through the
global goes to `8200`. -/
theorem sayHelloDelegate_written_before_publish_witness :
    (main .LINUX helloEnv).2.trace =
      (loadCalls .LINUX helloEnv ++
        [initializeCall .LINUX helloEnv "/opt/hello/TestClient.dll:".toList,
         createDelegateCall helloEnv "Initialize".toList,
         createDelegateCall helloEnv "SayHello".toList,
         Event.assignSayHelloDelegate 8200]) ++
      Event.initializeDelegate 8192 .OnInitialize ::
        [Event.OnInitialize true, Event.sayHelloDelegate 8200 .OnMessage,
         Event.OnMessage "Hello from Orleans".toList, Event.getline,
         Event.shutdownCoreClr 77 1] ∧
    (main .LINUX helloEnv).2.sayHelloDelegate = some 8200 ∧
    (main .LINUX helloEnv).1 = some 0 :=
  have hrun : (main .LINUX helloEnv).2.trace =
      (loadCalls .LINUX helloEnv ++
        [initializeCall .LINUX helloEnv "/opt/hello/TestClient.dll:".toList,
         createDelegateCall helloEnv "Initialize".toList,
         createDelegateCall helloEnv "SayHello".toList,
         Event.assignSayHelloDelegate 8200]) ++
      Event.initializeDelegate 8192 .OnInitialize ::
        [Event.OnInitialize true, Event.sayHelloDelegate 8200 .OnMessage,
         Event.OnMessage "Hello from Orleans".toList, Event.getline,
         Event.shutdownCoreClr 77 1] := by decide
  have h := sayHelloDelegate_written_before_publish .LINUX helloEnv _ _ 8192 hrun
  ⟨hrun, h.2.2.2.2.2.2.2.2.1, h.2.2.2.2.2.2.2.2.2⟩

end OrleansClientCpp
